import Mathlib

/-!
Shallow embedding of the conversion engine of `rust-bitcoind-json-rpc`
(the `json` crate, v0.17 wallet types) together with proofs about the
claims of its specification.

Wire decimal-currency values (JSON numbers decoded into `f64` and then
re-rendered through the shortest-round-trip decimal string before amount
parsing) are modelled as exact rationals `ℚ`: every decimal string the
wire can carry denotes a rational, and the amount converters operate on
that decimal value.
-/

namespace BitcoindJson

/-! ### Amounts (models of `bitcoin::Amount` / `bitcoin::SignedAmount` and
their `from_btc` constructors, the decimal-currency field converters). -/

/-- Error type of the amount converters, modelling
`bitcoin::amount::ParseAmountError` restricted to the outcomes reachable
from `from_btc`: a value outside the representable range (negative for the
unsigned type, or beyond the 64-bit bound) and a value not representable
exactly in satoshi subunits. -/
inductive ParseAmountError where
  | OutOfRange
  | TooPrecise
deriving DecidableEq, Repr

/-- An unsigned bitcoin amount in satoshi subunits (`bitcoin::Amount`,
a `u64` count of satoshis). -/
structure Amount where
  sats : ℕ
deriving DecidableEq, Repr

/-- A signed bitcoin amount in satoshi subunits (`bitcoin::SignedAmount`,
an `i64` count of satoshis). -/
structure SignedAmount where
  sats : ℤ
deriving DecidableEq, Repr

def u64Max : ℕ := 18446744073709551615

def i64Min : ℤ := -9223372036854775808

def i64Max : ℤ := 9223372036854775807

/-- The satoshi count denoted by a decimal BTC value, when that value is
exactly representable in satoshis (1 BTC = 10^8 sat). -/
def btcToSats (q : ℚ) : Option ℤ :=
  let scaled : ℚ := q * 100000000
  if scaled.den = 1 then some scaled.num else none

/-- `Amount::from_btc`: converts a decimal BTC value to an unsigned satoshi
amount.  Fails with `TooPrecise` when the value is not a whole number of
satoshis and with `OutOfRange` when it is negative or exceeds the `u64`
bound (the digit-precision scan happens before the sign check in the
source's string parser, hence this check order). -/
def Amount.from_btc (q : ℚ) : Except ParseAmountError Amount :=
  match btcToSats q with
  | none => .error .TooPrecise
  | some n =>
    if n < 0 then .error .OutOfRange
    else if n > (u64Max : ℤ) then .error .OutOfRange
    else .ok ⟨n.toNat⟩

/-- `SignedAmount::from_btc`: converts a decimal BTC value to a signed
satoshi amount, failing with `TooPrecise` when not a whole number of
satoshis and `OutOfRange` outside the `i64` bounds. -/
def SignedAmount.from_btc (q : ℚ) : Except ParseAmountError SignedAmount :=
  match btcToSats q with
  | none => .error .TooPrecise
  | some n =>
    if n < i64Min then .error .OutOfRange
    else if n > i64Max then .error .OutOfRange
    else .ok ⟨n⟩

/-- `Amount::to_btc`: renders the amount back as a decimal BTC value. -/
def Amount.to_btc (a : Amount) : ℚ := (a.sats : ℚ) / 100000000

/-- `SignedAmount::to_btc`: renders the amount back as a decimal BTC value. -/
def SignedAmount.to_btc (a : SignedAmount) : ℚ := (a.sats : ℚ) / 100000000

/-! ### Hex decoding (models of the `hex` field converters). -/

/-- Value of one hexadecimal digit character. -/
def hexDigitVal (c : Char) : Option ℕ :=
  if '0' ≤ c ∧ c ≤ '9' then some (c.toNat - 48)
  else if 'a' ≤ c ∧ c ≤ 'f' then some (c.toNat - 87)
  else if 'A' ≤ c ∧ c ≤ 'F' then some (c.toNat - 55)
  else none

/-- Error of plain hex-to-bytes decoding (`hex::HexToBytesError`). -/
inductive HexDecodeError where
  | OddLengthString (len : ℕ)
  | InvalidChar (c : Char)
deriving DecidableEq, Repr

/-- Decodes a list of hex digit characters, two per byte. -/
def decodeHex : List Char → Except HexDecodeError (List ℕ)
  | [] => .ok []
  | [c] =>
    match hexDigitVal c with
    | none => .error (.InvalidChar c)
    | some _ => .error (.OddLengthString 1)
  | c₁ :: c₂ :: rest =>
    match hexDigitVal c₁ with
    | none => .error (.InvalidChar c₁)
    | some h =>
      match hexDigitVal c₂ with
      | none => .error (.InvalidChar c₂)
      | some l =>
        match decodeHex rest with
        | .error e => .error e
        | .ok tail => .ok ((16 * h + l) :: tail)

/-- Error of hex decoding into a fixed-size byte array
(`hex::HexToArrayError`): wrong overall length, or a bad character. -/
inductive HexToArrayError where
  | InvalidLength (expected got : ℕ)
  | InvalidChar (c : Char)
deriving DecidableEq, Repr

/-- A transaction id: 32 bytes (`bitcoin::Txid`). -/
structure Txid where
  bytes : List ℕ
deriving DecidableEq, Repr

/-- `str::parse::<Txid>`: a txid is 64 hex characters decoding to 32 bytes;
the length of the hex string is checked first, then the characters.
The displayed hex is byte-reversed relative to the wire byte order. -/
def Txid.parse (s : String) : Except HexToArrayError Txid :=
  let cs := s.data
  if cs.length ≠ 64 then .error (.InvalidLength 64 cs.length)
  else
    match decodeHex cs with
    | .error (.InvalidChar c) => .error (.InvalidChar c)
    | .error (.OddLengthString _) => .error (.InvalidLength 64 cs.length)
    | .ok bs => .ok ⟨bs.reverse⟩

/-- The Hash160 of an HD seed (`bitcoin::hashes::hash160::Hash`, 20 bytes). -/
structure Hash160 where
  bytes : List ℕ
deriving DecidableEq, Repr

/-- `str::parse::<hash160::Hash>`: 40 hex characters decoding to 20 bytes. -/
def Hash160.parse (s : String) : Except HexToArrayError Hash160 :=
  let cs := s.data
  if cs.length ≠ 40 then .error (.InvalidLength 40 cs.length)
  else
    match decodeHex cs with
    | .error (.InvalidChar c) => .error (.InvalidChar c)
    | .error (.OddLengthString _) => .error (.InvalidLength 40 cs.length)
    | .ok bs => .ok ⟨bs⟩

/-! ### Addresses (model of the external `bitcoin::Address` string parser). -/

/-- Error of address parsing (`bitcoin::address::ParseError`), collapsed to
its observable role in this crate: the string is not valid address syntax. -/
inductive AddressParseError where
  | InvalidSyntax
deriving DecidableEq, Repr

/-- A parsed (network-unchecked) address.  The conversion engine treats the
address value as opaque; we carry the accepted string. -/
structure Address where
  text : String
deriving DecidableEq, Repr

def base58Alphabet : List Char :=
  "123456789ABCDEFGHJKLMNPQRSTUVWXYZabcdefghijkmnopqrstuvwxyz".data

def bech32Alphabet : List Char := "qpzry9x8gf2tvdw0s3jn54khce6mua7l".data

/-- `Address::from_str`, a model of the external `rust-bitcoin` address
parser at the level of detail this crate observes (accept/reject): a
syntactic validator accepting base58-shaped legacy addresses (26-35
characters drawn from the base58 alphabet) and bech32-shaped segwit
addresses (`bc1` followed by 11-73 characters of the bech32 data
alphabet).  The conversion engine only ever branches on success versus
failure of this parser, never on the parsed value. -/
def Address.from_str (s : String) : Except AddressParseError Address :=
  let cs := s.data
  if 26 ≤ cs.length ∧ cs.length ≤ 35 ∧ cs.all (fun c => base58Alphabet.contains c) then
    .ok ⟨s⟩
  else
    match cs with
    | 'b' :: 'c' :: '1' :: rest =>
      if 11 ≤ rest.length ∧ rest.length ≤ 73 ∧
          rest.all (fun c => bech32Alphabet.contains c) then
        .ok ⟨s⟩
      else .error .InvalidSyntax
    | _ => .error .InvalidSyntax

/-! ### Consensus transaction decoding (model of
`bitcoin::consensus::encode::deserialize_hex::<Transaction>`). -/

/-- Error of consensus decoding from bytes. -/
inductive DecodeError where
  | UnexpectedEof
  | NonMinimalVarInt
  | InvalidSegwitFlag (flag : ℕ)
  | EmptyWitnesses
  | ExcessData
deriving DecidableEq, Repr

/-- A transaction input. -/
structure TxIn where
  prev_txid : List ℕ
  prev_vout : ℕ
  script_sig : List ℕ
  sequence : ℕ
  witness : List (List ℕ)
deriving DecidableEq, Repr

/-- A transaction output. -/
structure TxOut where
  value : ℕ
  script_pubkey : List ℕ
deriving DecidableEq, Repr

/-- A decoded bitcoin transaction (`bitcoin::Transaction`). -/
structure Transaction where
  version : ℕ
  inputs : List TxIn
  outputs : List TxOut
  lock_time : ℕ
deriving DecidableEq, Repr

def readByte (bs : List ℕ) : Except DecodeError (ℕ × List ℕ) :=
  match bs with
  | [] => .error .UnexpectedEof
  | b :: rest => .ok (b, rest)

def readBytes : ℕ → List ℕ → Except DecodeError (List ℕ × List ℕ)
  | 0, bs => .ok ([], bs)
  | n + 1, bs => do
    let (b, bs) ← readByte bs
    let (chunk, bs) ← readBytes n bs
    .ok (b :: chunk, bs)

/-- Little-endian value of a byte list. -/
def leVal (bs : List ℕ) : ℕ := bs.foldr (fun b acc => b + 256 * acc) 0

def readLE (n : ℕ) (bs : List ℕ) : Except DecodeError (ℕ × List ℕ) := do
  let (chunk, bs) ← readBytes n bs
  .ok (leVal chunk, bs)

/-- Bitcoin's variable-length integer, with the minimal-encoding check the
consensus decoder enforces. -/
def readVarInt (bs : List ℕ) : Except DecodeError (ℕ × List ℕ) := do
  let (b, bs) ← readByte bs
  if b < 253 then .ok (b, bs)
  else if b = 253 then do
    let (v, bs) ← readLE 2 bs
    if v < 253 then .error .NonMinimalVarInt else .ok (v, bs)
  else if b = 254 then do
    let (v, bs) ← readLE 4 bs
    if v < 65536 then .error .NonMinimalVarInt else .ok (v, bs)
  else do
    let (v, bs) ← readLE 8 bs
    if v < 4294967296 then .error .NonMinimalVarInt else .ok (v, bs)

def readTxIn (bs : List ℕ) : Except DecodeError (TxIn × List ℕ) := do
  let (txid, bs) ← readBytes 32 bs
  let (vout, bs) ← readLE 4 bs
  let (slen, bs) ← readVarInt bs
  let (script, bs) ← readBytes slen bs
  let (seq, bs) ← readLE 4 bs
  .ok (⟨txid, vout, script, seq, []⟩, bs)

def readTxOut (bs : List ℕ) : Except DecodeError (TxOut × List ℕ) := do
  let (value, bs) ← readLE 8 bs
  let (slen, bs) ← readVarInt bs
  let (script, bs) ← readBytes slen bs
  .ok (⟨value, script⟩, bs)

def readMany {α : Type} (rd : List ℕ → Except DecodeError (α × List ℕ)) :
    ℕ → List ℕ → Except DecodeError (List α × List ℕ)
  | 0, bs => .ok ([], bs)
  | n + 1, bs => do
    let (a, bs) ← rd bs
    let (tail, bs) ← readMany rd n bs
    .ok (a :: tail, bs)

def readWitnessItem (bs : List ℕ) : Except DecodeError (List ℕ × List ℕ) := do
  let (n, bs) ← readVarInt bs
  readBytes n bs

def readWitness (bs : List ℕ) : Except DecodeError (List (List ℕ) × List ℕ) := do
  let (n, bs) ← readVarInt bs
  readMany readWitnessItem n bs

/-- Consensus-decodes a transaction from bytes: version, then either the
legacy layout (inputs, outputs, lock time) or, when the input-count
position holds the segwit marker `0x00` with flag `0x01`, the segwit
layout with one witness stack per input.  A segwit encoding whose
witnesses are all empty is rejected, as in the source decoder. -/
def Transaction.decode (bs : List ℕ) : Except DecodeError (Transaction × List ℕ) := do
  let (version, bs) ← readLE 4 bs
  let (n, bs) ← readVarInt bs
  if n = 0 then do
    let (flag, bs) ← readByte bs
    if flag = 1 then do
      let (nIn, bs) ← readVarInt bs
      let (ins, bs) ← readMany readTxIn nIn bs
      let (nOut, bs) ← readVarInt bs
      let (outs, bs) ← readMany readTxOut nOut bs
      let (wits, bs) ← readMany readWitness nIn bs
      let (lock, bs) ← readLE 4 bs
      if wits.all List.isEmpty then .error .EmptyWitnesses
      else
        let ins := List.zipWith (fun (i : TxIn) w => { i with witness := w }) ins wits
        .ok (⟨version, ins, outs, lock⟩, bs)
    else .error (.InvalidSegwitFlag flag)
  else do
    let (ins, bs) ← readMany readTxIn n bs
    let (nOut, bs) ← readVarInt bs
    let (outs, bs) ← readMany readTxOut nOut bs
    let (lock, bs) ← readLE 4 bs
    .ok (⟨version, ins, outs, lock⟩, bs)

/-- Error of `encode::deserialize_hex` (`encode::FromHexError`): a hex
decoding failure or a consensus decoding failure, including trailing
bytes not consumed by the decoder. -/
inductive FromHexError where
  | OddLengthString (len : ℕ)
  | InvalidChar (c : Char)
  | Decode (e : DecodeError)
deriving DecidableEq, Repr

/-- `encode::deserialize_hex::<Transaction>`: hex-decode the string and
consensus-decode a transaction, requiring every byte to be consumed. -/
def deserialize_hex (s : String) : Except FromHexError Transaction :=
  match decodeHex s.data with
  | .error (.OddLengthString n) => .error (.OddLengthString n)
  | .error (.InvalidChar c) => .error (.InvalidChar c)
  | .ok bytes =>
    match Transaction.decode bytes with
    | .error e => .error (.Decode e)
    | .ok (tx, rest) => if rest = [] then .ok tx else .error (.Decode .ExcessData)

/-! ### Enumerated wire fields. -/

/-- Serde-level deserialization failure for a derived enum with
`rename_all = "lowercase"`: an unknown variant string, carrying the
offending raw string. -/
inductive SerdeError where
  | UnknownVariant (raw : String)
deriving DecidableEq, Repr

/-- The wire `TransactionCategory` enum (`Send`, `Receive`), deserialized
from the lowercase strings of its serde attribute. -/
inductive TransactionCategory where
  | Send
  | Receive
deriving DecidableEq, Repr

/-- The derived serde deserializer for `TransactionCategory`
(`rename_all = "lowercase"`): `"send"` and `"receive"` are the documented
set; anything else is an unknown-variant error carrying the raw string. -/
def TransactionCategory.deserialize (s : String) : Except SerdeError TransactionCategory :=
  if s = "send" then .ok .Send
  else if s = "receive" then .ok .Receive
  else .error (.UnknownVariant s)

/-- The wire `Bip125Replacable` enum (the source spells the wire type
without the second `e`). -/
inductive Bip125Replaceable where
  | Yes
  | No
  | Unknown
deriving DecidableEq, Repr

/-! ### Domain model types (the `model` module): version-independent,
strongly typed results. -/

namespace model

/-- `model::TransactionCategory`. -/
inductive TransactionCategory where
  | Send
  | Receive
deriving DecidableEq, Repr

/-- `model::Bip125Replaceable`. -/
inductive Bip125Replaceable where
  | Yes
  | No
  | Unknown
deriving DecidableEq, Repr

/-- `model::GetBalance`: a validated unsigned amount. -/
structure GetBalance where
  amount : BitcoindJson.Amount
deriving DecidableEq, Repr

/-- `model::SendToAddress`: a validated transaction id. -/
structure SendToAddress where
  txid : BitcoindJson.Txid
deriving DecidableEq, Repr

/-- `model::GetTransactionDetail`. -/
structure GetTransactionDetail where
  address : BitcoindJson.Address
  category : TransactionCategory
  amount : BitcoindJson.SignedAmount
  label : Option String
  vout : ℕ
  fee : Option BitcoindJson.SignedAmount
  abandoned : Option Bool
deriving DecidableEq, Repr

/-- `model::GetTransaction`. -/
structure GetTransaction where
  amount : BitcoindJson.SignedAmount
  fee : Option BitcoindJson.SignedAmount
  confirmations : ℕ
  txid : BitcoindJson.Txid
  time : ℕ
  time_received : ℕ
  bip125_replaceable : Bip125Replaceable
  details : List GetTransactionDetail
  tx : BitcoindJson.Transaction
deriving DecidableEq, Repr

end model

/-- `TransactionCategory::into_model`.  The source declares the return
type `Result<_, TransactionCategoryError>` but its match maps each wire
variant straight to the model variant and the per-record error enums have
no category variant, so the conversion is total. -/
def TransactionCategory.into_model : TransactionCategory → model.TransactionCategory
  | .Send => .Send
  | .Receive => .Receive

/-- `Bip125Replaceable::into_model`: a total variant-for-variant map. -/
def Bip125Replaceable.into_model : Bip125Replaceable → model.Bip125Replaceable
  | .Yes => .Yes
  | .No => .No
  | .Unknown => .Unknown

/-! ### `getbalance`. -/

/-- The wire record of `getbalance`: a bare decimal BTC amount. -/
structure GetBalance where
  btc : ℚ
deriving DecidableEq, Repr

/-- `GetBalance::into_model`: converts the decimal balance through
`Amount::from_btc` (the field is documented as non-negative and typed with
the unsigned amount). -/
def GetBalance.into_model (b : GetBalance) : Except ParseAmountError model.GetBalance := do
  let amount ← Amount.from_btc b.btc
  .ok ⟨amount⟩

/-- `GetBalance::balance`: the single-field convenience accessor, calling
`into_model` and projecting the amount. -/
def GetBalance.balance (b : GetBalance) : Except ParseAmountError Amount := do
  let m ← b.into_model
  .ok m.amount

/-! ### `sendtoaddress`. -/

/-- The wire record of `sendtoaddress`: a bare txid string. -/
structure SendToAddress where
  txid : String
deriving DecidableEq, Repr

/-- `SendToAddress::into_model`: parses the txid. -/
def SendToAddress.into_model (s : SendToAddress) : Except HexToArrayError model.SendToAddress := do
  let txid ← Txid.parse s.txid
  .ok ⟨txid⟩

/-- `SendToAddress::txid`: the single-field convenience accessor, calling
`into_model` and projecting the txid. -/
def SendToAddress.txid_accessor (s : SendToAddress) : Except HexToArrayError Txid := do
  let m ← s.into_model
  .ok m.txid

/-! ### `gettransaction`. -/

/-- The wire record item of the `details` field of `gettransaction`. -/
structure GetTransactionDetail where
  account : String
  address : String
  category : TransactionCategory
  amount : ℚ
  label : Option String
  vout : ℕ
  fee : Option ℚ
  abandoned : Option Bool
deriving DecidableEq, Repr

/-- `GetTransactionDetailError`: one variant per fallible field of the
detail record, wrapping the field converter's error. -/
inductive GetTransactionDetailError where
  | Address (e : AddressParseError)
  | Amount (e : ParseAmountError)
  | Fee (e : ParseAmountError)
deriving DecidableEq, Repr

/-- `GetTransactionDetail::into_model`: address, then amount, then fee,
fail-fast; `account` is dropped; `category` is the total enum map; the
untyped fields are copied. -/
def GetTransactionDetail.into_model (d : GetTransactionDetail) :
    Except GetTransactionDetailError model.GetTransactionDetail := do
  let address ← (Address.from_str d.address).mapError .Address
  let amount ← (SignedAmount.from_btc d.amount).mapError .Amount
  let fee ← match d.fee with
    | none => pure none
    | some f => ((SignedAmount.from_btc f).mapError GetTransactionDetailError.Fee).map some
  .ok {
    address
    category := d.category.into_model
    amount
    label := d.label
    vout := d.vout
    fee
    abandoned := d.abandoned
  }

/-- The wire record of `gettransaction`, with the fields in the source's
declaration order. -/
structure GetTransaction where
  account : String
  amount : ℚ
  fee : Option ℚ
  confirmations : ℕ
  block_hash : String
  block_index : ℤ
  block_time : ℕ
  txid : String
  time : ℕ
  time_received : ℕ
  bip125_replaceable : Bip125Replaceable
  details : List GetTransactionDetail
  hex : String
deriving DecidableEq, Repr

/-- `GetTransactionError`: one variant per fallible field of
`GetTransaction`, wrapping the field converter's error; a `details`
failure wraps the inner detail error. -/
inductive GetTransactionError where
  | Amount (e : ParseAmountError)
  | Fee (e : ParseAmountError)
  | Txid (e : HexToArrayError)
  | Tx (e : FromHexError)
  | Details (e : GetTransactionDetailError)
deriving DecidableEq, Repr

/-- The `for detail in self.details` loop of `GetTransaction::into_model`:
converts each detail in order, wrapping the first failure in
`GetTransactionError::Details`. -/
def GetTransaction.convertDetails :
    List GetTransactionDetail → Except GetTransactionError (List model.GetTransactionDetail)
  | [] => .ok []
  | d :: ds => do
    let concrete ← (d.into_model).mapError .Details
    let tail ← convertDetails ds
    .ok (concrete :: tail)

/-- The `match self.fee` step of `GetTransaction::into_model`: an absent
fee converts to absence, a present fee through the signed amount
converter, tagged `Fee` on failure. -/
def GetTransaction.convertFee (fee : Option ℚ) :
    Except GetTransactionError (Option SignedAmount) :=
  match fee with
  | none => pure none
  | some f => ((SignedAmount.from_btc f).mapError GetTransactionError.Fee).map some

/-- `GetTransaction::into_model`: converts, in the source's order, the
`amount`, `fee`, `txid`, `hex` (consensus transaction) and `details`
fields, fail-fast with the matching error variant; `account`,
`block_hash`, `block_index` and `block_time` are dropped; `confirmations`,
`time`, `time_received` and `bip125_replaceable` are copied. -/
def GetTransaction.into_model (t : GetTransaction) :
    Except GetTransactionError model.GetTransaction := do
  let amount ← (SignedAmount.from_btc t.amount).mapError .Amount
  let fee ← GetTransaction.convertFee t.fee
  let txid ← (Txid.parse t.txid).mapError .Txid
  let tx ← (deserialize_hex t.hex).mapError .Tx
  let details ← GetTransaction.convertDetails t.details
  .ok {
    amount
    fee
    confirmations := t.confirmations
    txid
    time := t.time
    time_received := t.time_received
    bip125_replaceable := t.bip125_replaceable.into_model
    details
    tx
  }

/-! ### `listtransactions`. -/

/-- The wire record item of `listtransactions`, with the source's fields. -/
structure ListTransactionsItem where
  address : String
  category : TransactionCategory
  amount : ℚ
  label : Option String
  vout : ℤ
  fee : ℚ
  confirmations : ℤ
  trusted : Bool
  block_hash : String
  block_index : ℤ
  block_time : ℕ
  txid : String
  time : ℕ
  time_received : ℕ
  comment : Option String
  bip125_replaceable : Bip125Replaceable
  abandoned : Option Bool
deriving DecidableEq, Repr

/-- `ListTransactionsItemError`: the item's conversion error type, named by
the source as the error type of `ListTransactions::into_model` itself. -/
inductive ListTransactionsItemError where
  | Address (e : AddressParseError)
  | Amount (e : ParseAmountError)
  | Fee (e : ParseAmountError)
deriving DecidableEq, Repr

namespace model

/-- `model::ListTransactionsItem` (modelled from the spec, see
`ListTransactionsItem.into_model`). -/
structure ListTransactionsItem where
  address : BitcoindJson.Address
  category : TransactionCategory
  amount : BitcoindJson.SignedAmount
  label : Option String
  vout : ℤ
  fee : BitcoindJson.SignedAmount
  confirmations : ℤ
  trusted : Bool
  time : ℕ
  time_received : ℕ
  comment : Option String
  bip125_replaceable : Bip125Replaceable
  abandoned : Option Bool
deriving DecidableEq, Repr

/-- `model::ListTransactions`: the list of converted items. -/
structure ListTransactions where
  transactions : List ListTransactionsItem
deriving DecidableEq, Repr

end model

/-- Modelled from the spec: `ListTransactionsItem::into_model` is absent
from the source (the file carries only a `TODO` for it, while
`ListTransactions::into_model` already calls it and names its error type
`ListTransactionsItemError`).  Per the spec's conversion-engine pattern it
applies the matching field converters fail-fast in declaration order —
`address`, then `amount`, then `fee` — tagging the failure with the field's
variant, maps the enumerated `category` and copies the untyped fields. -/
def ListTransactionsItem.into_model (i : ListTransactionsItem) :
    Except ListTransactionsItemError model.ListTransactionsItem := do
  let address ← (Address.from_str i.address).mapError .Address
  let amount ← (SignedAmount.from_btc i.amount).mapError .Amount
  let fee ← (SignedAmount.from_btc i.fee).mapError .Fee
  .ok {
    address
    category := i.category.into_model
    amount
    label := i.label
    vout := i.vout
    fee
    confirmations := i.confirmations
    trusted := i.trusted
    time := i.time
    time_received := i.time_received
    comment := i.comment
    bip125_replaceable := i.bip125_replaceable.into_model
    abandoned := i.abandoned
  }

/-- The wire record of `listtransactions`: a list of items. -/
structure ListTransactions where
  items : List ListTransactionsItem
deriving DecidableEq, Repr

/-- The item-mapping of `ListTransactions::into_model`: converts each item,
propagating the first item failure with `?` — the error value is the item's
own `ListTransactionsItemError`, not wrapped in any outer variant (the
outer function's error type IS the item error type in the source). -/
def ListTransactions.convertItems :
    List ListTransactionsItem → Except ListTransactionsItemError (List model.ListTransactionsItem)
  | [] => .ok []
  | i :: is => do
    let concrete ← i.into_model
    let tail ← convertItems is
    .ok (concrete :: tail)

/-- `ListTransactions::into_model`. -/
def ListTransactions.into_model (l : ListTransactions) :
    Except ListTransactionsItemError model.ListTransactions := do
  let transactions ← ListTransactions.convertItems l.items
  .ok ⟨transactions⟩

/-! ### The fee-rate converter and `getwalletinfo`. -/

/-- A fee rate in currency per virtual byte (`bitcoin::FeeRate` as used
here: the per-size-unit amount produced from a per-1000-size-units wire
value). -/
structure FeeRate where
  per_vb : Amount
deriving DecidableEq, Repr

/-- `btc_per_kb` (crate root): divides the BTC-per-kilobyte rate by 1000
to get BTC per byte, converts that through `Amount::from_btc` and wraps
the result as a per-virtual-byte fee rate; its only failure mode is the
inner amount conversion's. -/
def btc_per_kb (fee_rate : ℚ) : Except ParseAmountError FeeRate := do
  let rate := fee_rate / 1000
  let a ← Amount.from_btc rate
  .ok ⟨a⟩

namespace model

/-- `model::GetWalletInfo`. -/
structure GetWalletInfo where
  wallet_name : String
  wallet_version : ℤ
  balance : BitcoindJson.Amount
  unconfirmed_balance : BitcoindJson.Amount
  immature_balance : BitcoindJson.Amount
  tx_count : ℤ
  keypool_oldest : ℤ
  keypool_size : ℤ
  keypool_size_hd_internal : ℤ
  unlocked_until : ℕ
  pay_tx_fee : BitcoindJson.FeeRate
  hd_seed_id : Option BitcoindJson.Hash160
  private_keys_enabled : Bool
deriving DecidableEq, Repr

end model

/-- The wire record of `getwalletinfo`.  `hd_seed_id` is the live field;
`hd_master_key_id` is its deprecated alias (to be removed in v0.18). -/
structure GetWalletInfo where
  wallet_name : String
  wallet_version : ℤ
  balance : ℚ
  unconfirmed_balance : ℚ
  immature_balance : ℚ
  tx_count : ℤ
  keypool_oldest : ℤ
  keypool_size : ℤ
  keypool_size_hd_internal : ℤ
  unlocked_until : ℕ
  pay_tx_fee : ℚ
  hd_seed_id : Option String
  hd_master_key_id : Option String
  private_keys_enabled : Bool
deriving DecidableEq, Repr

/-- `GetWalletInfoError`: one variant per fallible field.  The source's
enum has the first four variants; the `pay_tx_fee` conversion through
`btc_per_kb` is fallible too but the source's line drops that error on the
floor (a slip — there is no variant for it), so we surface it as the extra
`PayTxFee` variant to keep the engine a total function. -/
inductive GetWalletInfoError where
  | Balance (e : ParseAmountError)
  | UnconfirmedBalance (e : ParseAmountError)
  | ImmatureBalance (e : ParseAmountError)
  | HdSeedId (e : HexToArrayError)
  | PayTxFee (e : ParseAmountError)
deriving DecidableEq, Repr

/-- `GetWalletInfo::into_model`: converts the three balances, the
`pay_tx_fee` rate via `btc_per_kb`, and the `hd_seed_id` hash; the
deprecated `hd_master_key_id` alias is not read; the remaining fields are
copied. -/
def GetWalletInfo.into_model (w : GetWalletInfo) :
    Except GetWalletInfoError model.GetWalletInfo := do
  let balance ← (Amount.from_btc w.balance).mapError .Balance
  let unconfirmed_balance ← (Amount.from_btc w.unconfirmed_balance).mapError .UnconfirmedBalance
  let immature_balance ← (Amount.from_btc w.immature_balance).mapError .ImmatureBalance
  let pay_tx_fee ← (btc_per_kb w.pay_tx_fee).mapError .PayTxFee
  let hd_seed_id ← match w.hd_seed_id with
    | none => pure none
    | some s => ((Hash160.parse s).mapError GetWalletInfoError.HdSeedId).map some
  .ok {
    wallet_name := w.wallet_name
    wallet_version := w.wallet_version
    balance
    unconfirmed_balance
    immature_balance
    tx_count := w.tx_count
    keypool_oldest := w.keypool_oldest
    keypool_size := w.keypool_size
    keypool_size_hd_internal := w.keypool_size_hd_internal
    unlocked_until := w.unlocked_until
    pay_tx_fee
    hd_seed_id
    private_keys_enabled := w.private_keys_enabled
  }

/-! ### `getaddressinfo` embedded record. -/

/-- The `script` field enum of `getaddressinfo`. -/
inductive GetAddressInfoScriptType where
  | NonStandard
  | Pubkey
  | PubkeyHash
  | ScriptHash
  | Multisig
  | NullData
  | WitnessV0KeyHash
  | WitnessV0ScriptHash
  | WitnessUnknown
deriving DecidableEq, Repr

/-- A `labels` entry of `getaddressinfo`: a name and a purpose string. -/
structure GetAddressInfoLabel where
  name : String
  purpose : String
deriving DecidableEq, Repr

/-- The `embedded` field record of `getaddressinfo`, with the source's
fields (it nests optionally in itself). -/
inductive GetAddressInfoEmbedded where
  | mk
    (address : String)
    (script_pubkey : String)
    (is_script : Bool)
    (is_witness : Bool)
    (witness_version : Option ℤ)
    (witness_program : Option String)
    (script : Option GetAddressInfoScriptType)
    (hex : Option String)
    (pubkeys : List String)
    (sigs_required : Option ℤ)
    (pubkey : Option String)
    (embedded : Option GetAddressInfoEmbedded)
    (is_compressed : Bool)
    (label : String)
    (labels : List GetAddressInfoLabel)

/-- `GetAddressInfoError`: one variant per fallible field of
`GetAddressInfo` (payload types simplified to the error carriers this
embedding defines, or to the raw offending value). -/
inductive GetAddressInfoError where
  | Address (e : AddressParseError)
  | ScriptPubkey (e : HexDecodeError)
  | WitnessVersionValue (v : ℤ)
  | WitnessVersion (v : ℤ)
  | WitnessProgram (e : HexDecodeError)
  | Hex (e : HexDecodeError)
  | Pubkeys (e : HexDecodeError)
  | Pubkey (e : HexDecodeError)
  | Embedded
  | HdKeyPath (e : HexDecodeError)
  | HdSeedId (e : HexToArrayError)
  | Labels (raw : String)
deriving DecidableEq, Repr

/-- A placeholder-free model of execution outcome for code that can
panic: either the computation panics (aborts) or returns a value. -/
inductive PanicOr (α : Type) where
  | panics
  | ok (v : α)
deriving DecidableEq

namespace model

/-- `model::GetAddressInfoEmbedded` — never constructed by the v0.17 code
(the conversion panics before building it), so its fields are irrelevant
here; we keep the validated address as a representative field. -/
structure GetAddressInfoEmbedded where
  address : BitcoindJson.Address
deriving DecidableEq, Repr

end model

/-- `GetAddressInfoEmbedded::into_model`: the source body is
`todo!("Copy GetAddressInfo::into_model once that builds")`, which panics
unconditionally on every input instead of returning a typed error. -/
def GetAddressInfoEmbedded.into_model (_ : GetAddressInfoEmbedded) :
    PanicOr (Except GetAddressInfoError model.GetAddressInfoEmbedded) :=
  .panics

/-! ### Concrete example values used by the concrete theorems below. -/

/-- 64 zero characters: a well-formed txid hex string (32 bytes). -/
def zeros64 : String := String.mk (List.replicate 64 '0')

/-- 60 zero characters: valid hex, but decoding to 30 bytes, not 32. -/
def zeros60 : String := String.mk (List.replicate 60 '0')

/-- 40 zero characters: a well-formed hash160 hex string (20 bytes). -/
def zeros40 : String := String.mk (List.replicate 40 '0')

/-- Hex of a minimal well-formed legacy transaction: version 1, one input
spending output `0xffffffff` of the all-zero txid with empty script and
sequence `0xffffffff`, one zero-value output with empty script, lock time
0. -/
def txHexValid : String :=
  "01000000" ++ "01" ++ zeros64 ++ "ffffffff" ++ "00" ++ "ffffffff" ++
    "01" ++ "0000000000000000" ++ "00" ++ "00000000"

/-- The transaction that `txHexValid` decodes to. -/
def txValid : Transaction :=
  ⟨1, [⟨List.replicate 32 0, 4294967295, [], 4294967295, []⟩], [⟨0, []⟩], 0⟩

/-- A transaction detail whose `address` field fails to parse. -/
def badDetail : GetTransactionDetail :=
  { account := ""
    address := "bad"
    category := .Send
    amount := 0
    label := none
    vout := 0
    fee := none
    abandoned := none }

/-- A `listtransactions` item whose `address` field fails to parse. -/
def badItem : ListTransactionsItem :=
  { address := "bad"
    category := .Send
    amount := 0
    label := none
    vout := 0
    fee := 0
    confirmations := 0
    trusted := false
    block_hash := ""
    block_index := 0
    block_time := 0
    txid := zeros64
    time := 0
    time_received := 0
    comment := none
    bip125_replaceable := .No
    abandoned := none }

/-- A `getwalletinfo` wire record in which the live `hd_seed_id` field is
structurally absent while the deprecated `hd_master_key_id` alias is
present and holds a perfectly convertible hash string. -/
def walletInfoAliasOnly : GetWalletInfo :=
  { wallet_name := "w"
    wallet_version := 0
    balance := 0
    unconfirmed_balance := 0
    immature_balance := 0
    tx_count := 0
    keypool_oldest := 0
    keypool_size := 0
    keypool_size_hd_internal := 0
    unlocked_until := 0
    pay_tx_fee := 0
    hd_seed_id := none
    hd_master_key_id := some zeros40
    private_keys_enabled := true }

/-- The domain value `walletInfoAliasOnly` converts to: its `hd_seed_id`
is `none` — the alias was not converted. -/
def walletInfoAliasOnlyModel : model.GetWalletInfo :=
  { wallet_name := "w"
    wallet_version := 0
    balance := ⟨0⟩
    unconfirmed_balance := ⟨0⟩
    immature_balance := ⟨0⟩
    tx_count := 0
    keypool_oldest := 0
    keypool_size := 0
    keypool_size_hd_internal := 0
    unlocked_until := 0
    pay_tx_fee := ⟨⟨0⟩⟩
    hd_seed_id := none
    private_keys_enabled := true }

/-- A `gettransaction` record in which both a later-declared field (`hex`)
and an earlier-declared field (`details`) fail to convert. -/
def txRecordHexAndDetailsBad : GetTransaction :=
  { account := ""
    amount := 0
    fee := none
    confirmations := 0
    block_hash := ""
    block_index := 0
    block_time := 0
    txid := zeros64
    time := 0
    time_received := 0
    bip125_replaceable := .No
    details := [badDetail]
    hex := "zz" }

/-- A `gettransaction` record whose `txid` is valid hex of the wrong
decoded length (30 bytes instead of 32). -/
def txRecordShortTxid : GetTransaction :=
  { account := ""
    amount := 0
    fee := none
    confirmations := 0
    block_hash := ""
    block_index := 0
    block_time := 0
    txid := zeros60
    time := 0
    time_received := 0
    bip125_replaceable := .No
    details := []
    hex := txHexValid }

/-- A `gettransaction` record that is valid except that its single detail
fails to convert. -/
def txRecordBadDetail : GetTransaction :=
  { account := ""
    amount := 0
    fee := none
    confirmations := 0
    block_hash := ""
    block_index := 0
    block_time := 0
    txid := zeros64
    time := 0
    time_received := 0
    bip125_replaceable := .No
    details := [badDetail]
    hex := txHexValid }

/-! ### Generic reduction lemmas for the `Except` conversion monad. -/

@[simp]
theorem except_bind_ok {ε α β : Type} (x : α) (f : α → Except ε β) :
    (Except.ok x : Except ε α) >>= f = f x := rfl

@[simp]
theorem except_bind_error {ε α β : Type} (e : ε) (f : α → Except ε β) :
    (Except.error e : Except ε α) >>= f = (Except.error e : Except ε β) := rfl

@[simp]
theorem except_mapError_ok {ε ε' α : Type} (g : ε → ε') (x : α) :
    (Except.ok x : Except ε α).mapError g = Except.ok x := rfl

@[simp]
theorem except_mapError_error {ε ε' α : Type} (g : ε → ε') (e : ε) :
    (Except.error e : Except ε α).mapError g = Except.error (g e) := rfl

@[simp]
theorem except_map_ok {ε α β : Type} (g : α → β) (x : α) :
    (Except.ok x : Except ε α).map g = Except.ok (g x) := rfl

@[simp]
theorem except_map_error {ε α β : Type} (g : α → β) (e : ε) :
    (Except.error e : Except ε α).map g = Except.error e := rfl

@[simp]
theorem except_pure_eq {ε α : Type} (x : α) :
    (pure x : Except ε α) = Except.ok x := rfl

/-! ### Lemmas about the amount converters. -/

theorem btcToSats_some {q : ℚ} {n : ℤ} (h : q * 100000000 = (n : ℚ)) :
    btcToSats q = some n := by
  simp [btcToSats, h]

theorem btcToSats_eq_some {q : ℚ} {n : ℤ} (h : btcToSats q = some n) :
    q * 100000000 = (n : ℚ) := by
  simp only [btcToSats] at h
  by_cases hd : (q * 100000000).den = 1
  · rw [if_pos hd] at h
    have hn := Option.some.inj h
    rw [← hn]
    exact ((Rat.den_eq_one_iff _).mp hd).symm
  · rw [if_neg hd] at h
    cases h

theorem btcToSats_none {q : ℚ} (h : (q * 100000000).den ≠ 1) : btcToSats q = none := by
  simp [btcToSats, h]

theorem Amount.from_btc_not_whole_sats {q : ℚ} (h : (q * 100000000).den ≠ 1) :
    Amount.from_btc q = .error .TooPrecise := by
  simp [Amount.from_btc, btcToSats_none h]

theorem SignedAmount.from_btc_signed_not_whole_sats {q : ℚ} (h : (q * 100000000).den ≠ 1) :
    SignedAmount.from_btc q = .error .TooPrecise := by
  simp [SignedAmount.from_btc, btcToSats_none h]

/-- Whenever the unsigned amount converter succeeds, rendering the result
back as decimal BTC returns exactly the input. -/
theorem Amount.from_btc_render_roundtrip {q : ℚ} {a : Amount}
    (h : Amount.from_btc q = .ok a) : a.to_btc = q := by
  unfold Amount.from_btc at h
  cases hm : btcToSats q with
  | none => rw [hm] at h; cases h
  | some n =>
    rw [hm] at h
    dsimp only at h
    by_cases h0 : n < 0
    · rw [if_pos h0] at h; cases h
    · rw [if_neg h0] at h
      by_cases h1 : n > (u64Max : ℤ)
      · rw [if_pos h1] at h; cases h
      · rw [if_neg h1] at h
        have ha := Except.ok.inj h
        have hq := btcToSats_eq_some hm
        rw [← ha]
        unfold Amount.to_btc
        have hcast : ((n.toNat : ℕ) : ℚ) = (n : ℚ) := by
          rw [← Int.cast_natCast]
          rw [Int.toNat_of_nonneg (le_of_not_lt h0)]
        rw [hcast, ← hq]
        field_simp

/-- Whenever the signed amount converter succeeds, rendering the result
back as decimal BTC returns exactly the input. -/
theorem SignedAmount.from_btc_signed_render_roundtrip {q : ℚ} {a : SignedAmount}
    (h : SignedAmount.from_btc q = .ok a) : a.to_btc = q := by
  unfold SignedAmount.from_btc at h
  cases hm : btcToSats q with
  | none => rw [hm] at h; cases h
  | some n =>
    rw [hm] at h
    dsimp only at h
    by_cases h0 : n < i64Min
    · rw [if_pos h0] at h; cases h
    · rw [if_neg h0] at h
      by_cases h1 : n > i64Max
      · rw [if_pos h1] at h; cases h
      · rw [if_neg h1] at h
        have ha := Except.ok.inj h
        have hq := btcToSats_eq_some hm
        rw [← ha]
        unfold SignedAmount.to_btc
        rw [← hq]
        field_simp

/-! ### Claim C2. -/

/-- **C2**: `GetBalance::into_model` applied to the wire record
`GetBalance(0.00515000)` returns the domain amount of 515000 satoshi
subunits; applied to `GetBalance(-0.0001)` it returns the `OutOfRange`
conversion error, since the balance field uses the unsigned amount type. -/
theorem C2_balance_scenarios :
    GetBalance.into_model ⟨515 / 100000⟩ = .ok ⟨⟨515000⟩⟩ ∧
    GetBalance.into_model ⟨-(1 / 10000)⟩ = .error .OutOfRange := by
  constructor
  · norm_num [GetBalance.into_model, Amount.from_btc, btcToSats, u64Max]
    decide
  · norm_num [GetBalance.into_model, Amount.from_btc, btcToSats]

/-! ### Claim C5. -/

/-- **C5**: converting a decimal amount and rendering the resulting domain
amount back to decimal yields the input again — for `GetBalance::into_model`
and for the amount field of `GetTransactionDetail::into_model` — and any
decimal not exactly representable in satoshi subunits fails conversion
(with `TooPrecise`) instead of silently rounding, for both the unsigned
and the signed converter. -/
theorem C5_amount_roundtrip :
    (∀ (b : GetBalance) (m : model.GetBalance),
        GetBalance.into_model b = .ok m → m.amount.to_btc = b.btc) ∧
    (∀ (d : GetTransactionDetail) (m : model.GetTransactionDetail),
        GetTransactionDetail.into_model d = .ok m → m.amount.to_btc = d.amount) ∧
    (∀ q : ℚ, (q * 100000000).den ≠ 1 →
        Amount.from_btc q = .error .TooPrecise ∧
        SignedAmount.from_btc q = .error .TooPrecise) := by
  refine ⟨?_, ?_, ?_⟩
  · intro b m h
    unfold GetBalance.into_model at h
    cases ha : Amount.from_btc b.btc with
    | error e => rw [ha] at h; simp at h
    | ok a =>
      rw [ha, except_bind_ok] at h
      have hm := Except.ok.inj h
      rw [← hm]
      exact Amount.from_btc_render_roundtrip ha
  · intro d m h
    unfold GetTransactionDetail.into_model at h
    cases haddr : Address.from_str d.address with
    | error e => rw [haddr] at h; simp at h
    | ok addr =>
      rw [haddr, except_mapError_ok, except_bind_ok] at h
      cases ham : SignedAmount.from_btc d.amount with
      | error e => rw [ham] at h; simp at h
      | ok am =>
        rw [ham, except_mapError_ok, except_bind_ok] at h
        cases hf : d.fee with
        | none =>
          rw [hf] at h
          simp only [except_pure_eq, except_bind_ok] at h
          have hm := Except.ok.inj h
          rw [← hm]
          exact SignedAmount.from_btc_signed_render_roundtrip ham
        | some f =>
          rw [hf] at h
          dsimp only at h
          cases hfe : SignedAmount.from_btc f with
          | error e => rw [hfe] at h; simp at h
          | ok fa =>
            rw [hfe] at h
            simp only [except_mapError_ok, except_map_ok, except_bind_ok] at h
            have hm := Except.ok.inj h
            rw [← hm]
            exact SignedAmount.from_btc_signed_render_roundtrip ham
  · intro q hq
    exact ⟨Amount.from_btc_not_whole_sats hq, SignedAmount.from_btc_signed_not_whole_sats hq⟩

/-- Witness for C5 at concrete inputs: the balance 0.00515 renders back to
0.00515 after conversion, and 10^-9 BTC (a tenth of a satoshi) fails with
`TooPrecise` in both converters. -/
theorem C5_amount_roundtrip_witness :
    (Amount.to_btc ⟨515000⟩ = (515 / 100000 : ℚ)) ∧
    (Amount.from_btc (1 / 1000000000) = .error .TooPrecise ∧
     SignedAmount.from_btc (1 / 1000000000) = .error .TooPrecise) := by
  constructor
  · exact C5_amount_roundtrip.1 ⟨515 / 100000⟩ ⟨⟨515000⟩⟩ (by
      norm_num [GetBalance.into_model, Amount.from_btc, btcToSats, u64Max]
      decide)
  · exact C5_amount_roundtrip.2.2 (1 / 1000000000) (by norm_num)

/-! ### Claim C4. -/

/-- **C4** (refuted — the code panics): `GetAddressInfoEmbedded::into_model`
is a bare `todo!()`, so for every input it panics instead of returning a
typed error, contradicting the never-panic policy. -/
theorem C4_embedded_conversion_panics :
    ∀ e : GetAddressInfoEmbedded, GetAddressInfoEmbedded.into_model e = .panics :=
  fun _ => rfl

/-! ### Claim C6. -/

/-- **C6**: each documented category string (`"send"`, `"receive"`)
deserializes to its wire variant and converts to the corresponding domain
variant, and every other string fails with an unknown-variant error
carrying the offending raw string. -/
theorem C6_category_enum :
    (TransactionCategory.deserialize "send" = .ok .Send ∧
      TransactionCategory.Send.into_model = model.TransactionCategory.Send) ∧
    (TransactionCategory.deserialize "receive" = .ok .Receive ∧
      TransactionCategory.Receive.into_model = model.TransactionCategory.Receive) ∧
    (∀ s : String, s ≠ "send" → s ≠ "receive" →
      TransactionCategory.deserialize s = .error (.UnknownVariant s)) := by
  refine ⟨⟨rfl, rfl⟩, ⟨rfl, rfl⟩, ?_⟩
  intro s h1 h2
  simp [TransactionCategory.deserialize, h1, h2]

/-- Witness for C6: the undocumented string `"orphan"` fails with the
unknown-variant error carrying `"orphan"`. -/
theorem C6_category_enum_witness :
    TransactionCategory.deserialize "orphan" = .error (.UnknownVariant "orphan") :=
  C6_category_enum.2.2 "orphan" (by decide) (by decide)

/-! ### Claim C7. -/

/-- **C7**: the single-field convenience accessors equal `into_model`
followed by projection of the one field — `GetBalance::balance` projects
the amount and `SendToAddress::txid` projects the txid — returning exactly
the same value on success and exactly the same error on failure. -/
theorem C7_accessors :
    (∀ b : GetBalance,
      GetBalance.balance b = (GetBalance.into_model b).map model.GetBalance.amount) ∧
    (∀ s : SendToAddress,
      SendToAddress.txid_accessor s = (SendToAddress.into_model s).map model.SendToAddress.txid) := by
  constructor
  · intro b
    unfold GetBalance.balance
    cases h : GetBalance.into_model b <;> simp [h]
  · intro s
    unfold SendToAddress.txid_accessor
    cases h : SendToAddress.into_model s <;> simp [h]

/-! ### Claim C8. -/

/-- **C8**: the fee-rate converter `btc_per_kb` turns a BTC-per-kilobyte
rate `r` into the per-virtual-byte rate `r / 1000` (the produced amount
renders back to exactly `r / 1000` BTC), and its only failure mode is the
inner amount conversion applied to `r / 1000`: it fails with an error
exactly when `Amount::from_btc (r / 1000)` fails with that same error. -/
theorem C8_btc_per_kb :
    ∀ r : ℚ,
      (∀ f : FeeRate, btc_per_kb r = .ok f → f.per_vb.to_btc = r / 1000) ∧
      (∀ e, btc_per_kb r = .error e ↔ Amount.from_btc (r / 1000) = .error e) := by
  intro r
  have hrw : btc_per_kb r = (Amount.from_btc (r / 1000)) >>= fun a => .ok ⟨a⟩ := rfl
  constructor
  · intro f h
    rw [hrw] at h
    cases ha : Amount.from_btc (r / 1000) with
    | error e => rw [ha] at h; simp at h
    | ok a =>
      rw [ha, except_bind_ok] at h
      have hf := Except.ok.inj h
      rw [← hf]
      exact Amount.from_btc_render_roundtrip ha
  · intro e
    rw [hrw]
    cases ha : Amount.from_btc (r / 1000) with
    | error e₂ => simp
    | ok a => simp

/-- Witness for C8: at the rate of 1 BTC/kB the converter yields 100000
satoshis per virtual byte, which renders back to 1/1000 BTC. -/
theorem C8_btc_per_kb_witness :
    Amount.to_btc (FeeRate.per_vb ⟨⟨100000⟩⟩) = (1 : ℚ) / 1000 :=
  (C8_btc_per_kb 1).1 ⟨⟨100000⟩⟩ (by
    norm_num [btc_per_kb, Amount.from_btc, btcToSats, u64Max]
    decide)

/-! ### Claim C10. -/

/-- **C10**: two `GetTransaction` wire records that differ only in the
`account`, `block_hash`, `block_index` or `block_time` fields convert to
identical results — those four wire fields are discarded by `into_model`
and influence neither the domain value nor the error. -/
theorem C10_ignored_fields :
    ∀ (t : GetTransaction) (acc bh : String) (bi : ℤ) (bt : ℕ),
      GetTransaction.into_model
        { t with account := acc, block_hash := bh, block_index := bi, block_time := bt } =
      GetTransaction.into_model t :=
  fun _ _ _ _ _ => rfl

/-! ### Claim C1. -/

/-- **C1** (counterexample): a `GetTransaction` record in which both the
`details` field (declared earlier) and the `hex` field (declared later)
fail to convert is reported as the `Tx` (hex) variant, not the `Details`
variant — so the failure reported is not the first failing field in
declaration order. -/
theorem C1_counterexample :
    GetTransaction.into_model txRecordHexAndDetailsBad = .error (.Tx (.InvalidChar 'z')) ∧
    GetTransactionDetail.into_model badDetail = .error (.Address .InvalidSyntax) := by
  have ha : SignedAmount.from_btc (0 : ℚ) = .ok ⟨0⟩ := by
    norm_num [SignedAmount.from_btc, btcToSats, i64Min, i64Max]
  have hfee : GetTransaction.convertFee none = .ok none := rfl
  have htxid : Txid.parse zeros64 = .ok ⟨List.replicate 32 0⟩ := rfl
  have hhex : deserialize_hex "zz" = .error (.InvalidChar 'z') := rfl
  exact ⟨by simp [GetTransaction.into_model, txRecordHexAndDetailsBad, ha, hfee, htxid, hhex],
    rfl⟩

/-- **C1** (amended): `GetTransaction::into_model` is fail-fast in the
fixed conversion order `amount`, `fee`, `txid`, `hex`, `details` — which
differs from the record's field declaration order in that `hex` is
converted before `details` — returning the error variant of the first
converter in that order to fail, with the fields after the failing one
not influencing the result; in particular a record whose `txid` is valid
hex of a decoded length other than 32 bytes yields the `Txid` variant
whatever its `hex` and `details` fields hold. -/
theorem C1_conversion_order :
    ∀ t : GetTransaction,
      (∀ e, SignedAmount.from_btc t.amount = .error e →
        GetTransaction.into_model t = .error (.Amount e)) ∧
      (∀ a err, SignedAmount.from_btc t.amount = .ok a →
        GetTransaction.convertFee t.fee = .error err →
        GetTransaction.into_model t = .error err) ∧
      (∀ a fee e, SignedAmount.from_btc t.amount = .ok a →
        GetTransaction.convertFee t.fee = .ok fee →
        Txid.parse t.txid = .error e →
        ∀ (hx : String) (ds : List GetTransactionDetail),
          GetTransaction.into_model { t with hex := hx, details := ds } =
            .error (.Txid e)) ∧
      (∀ a fee txid e, SignedAmount.from_btc t.amount = .ok a →
        GetTransaction.convertFee t.fee = .ok fee →
        Txid.parse t.txid = .ok txid →
        deserialize_hex t.hex = .error e →
        ∀ ds : List GetTransactionDetail,
          GetTransaction.into_model { t with details := ds } = .error (.Tx e)) ∧
      (∀ a fee txid tx err, SignedAmount.from_btc t.amount = .ok a →
        GetTransaction.convertFee t.fee = .ok fee →
        Txid.parse t.txid = .ok txid →
        deserialize_hex t.hex = .ok tx →
        GetTransaction.convertDetails t.details = .error err →
        GetTransaction.into_model t = .error err) := by
  intro t
  refine ⟨?_, ?_, ?_, ?_, ?_⟩
  · intro e h
    simp [GetTransaction.into_model, h]
  · intro a err h1 h2
    simp [GetTransaction.into_model, h1, h2]
  · intro a fee e h1 h2 h3 hx ds
    simp [GetTransaction.into_model, h1, h2, h3]
  · intro a fee txid e h1 h2 h3 h4 ds
    simp [GetTransaction.into_model, h1, h2, h3, h4]
  · intro a fee txid tx err h1 h2 h3 h4 h5
    simp [GetTransaction.into_model, h1, h2, h3, h4, h5]

/-- Witness for C1 at a concrete record: a txid of 60 hex characters
(30 bytes) yields the `Txid` invalid-length error even when the `hex`
field is invalid hex and the single detail is unconvertible. -/
theorem C1_conversion_order_witness :
    GetTransaction.into_model
        { txRecordShortTxid with hex := "zz", details := [badDetail] } =
      .error (.Txid (.InvalidLength 64 60)) :=
  (C1_conversion_order txRecordShortTxid).2.2.1 ⟨0⟩ none (.InvalidLength 64 60)
    (by norm_num [txRecordShortTxid, SignedAmount.from_btc, btcToSats, i64Min, i64Max])
    rfl rfl "zz" [badDetail]

/-! ### Claim C3. -/

/-- **C3** (counterexample): a `ListTransactions` record with one item
whose address fails to convert returns the item's own error value
(`ListTransactionsItemError::Address`) as the outer result — the inner
error is propagated alone, not wrapped in an outer per-field variant. -/
theorem C3_counterexample :
    ListTransactions.into_model ⟨[badItem]⟩ = .error (.Address .InvalidSyntax) ∧
    ListTransactionsItem.into_model badItem = .error (.Address .InvalidSyntax) :=
  ⟨rfl, rfl⟩

/-- **C3** (amended): a failing nested detail of `GetTransaction` is
wrapped in the outer `Details` variant with the inner error preserved as
its cause, but a failing item of `ListTransactions` is propagated as the
inner item error alone (the outer conversion's error type is the item's
error type, so nothing is wrapped). -/
theorem C3_nested_wrapping :
    (∀ (d : GetTransactionDetail) (ds : List GetTransactionDetail)
        (e : GetTransactionDetailError),
      GetTransactionDetail.into_model d = .error e →
      GetTransaction.convertDetails (d :: ds) = .error (.Details e)) ∧
    (∀ (t : GetTransaction) (a : SignedAmount) (fee : Option SignedAmount)
        (txid : Txid) (tx : Transaction) (err : GetTransactionError),
      SignedAmount.from_btc t.amount = .ok a →
      GetTransaction.convertFee t.fee = .ok fee →
      Txid.parse t.txid = .ok txid →
      deserialize_hex t.hex = .ok tx →
      GetTransaction.convertDetails t.details = .error err →
      GetTransaction.into_model t = .error err) ∧
    (∀ (i : ListTransactionsItem) (rest : List ListTransactionsItem)
        (e : ListTransactionsItemError),
      ListTransactionsItem.into_model i = .error e →
      ListTransactions.into_model ⟨i :: rest⟩ = .error e) := by
  refine ⟨?_, ?_, ?_⟩
  · intro d ds e h
    simp [GetTransaction.convertDetails, h]
  · intro t a fee txid tx err h1 h2 h3 h4 h5
    simp [GetTransaction.into_model, h1, h2, h3, h4, h5]
  · intro i rest e h
    simp [ListTransactions.into_model, ListTransactions.convertItems, h]

/-- Witness for C3 at concrete records: the otherwise-valid
`gettransaction` record with one unconvertible detail fails with the
wrapped `Details` error, inner address cause preserved. -/
theorem C3_nested_wrapping_witness :
    GetTransaction.into_model txRecordBadDetail =
      .error (.Details (.Address .InvalidSyntax)) :=
  C3_nested_wrapping.2.1 txRecordBadDetail ⟨0⟩ none ⟨List.replicate 32 0⟩ txValid
    (.Details (.Address .InvalidSyntax))
    (by norm_num [txRecordBadDetail, SignedAmount.from_btc, btcToSats, i64Min, i64Max])
    rfl rfl rfl rfl

/-! ### Claim C9. -/

/-- **C9** (counterexample): a `getwalletinfo` record in which the live
`hd_seed_id` field is structurally absent and the deprecated alias
`hd_master_key_id` holds a perfectly convertible hash string converts
successfully to a domain value whose `hd_seed_id` is `none` — the alias
is not the field converted, contradicting the claim's fallback clause. -/
theorem C9_counterexample :
    GetWalletInfo.into_model walletInfoAliasOnly = .ok walletInfoAliasOnlyModel ∧
    walletInfoAliasOnlyModel.hd_seed_id = none ∧
    Hash160.parse zeros40 = .ok ⟨List.replicate 20 0⟩ := by
  have h0 : Amount.from_btc (0 : ℚ) = .ok ⟨0⟩ := by
    norm_num [Amount.from_btc, btcToSats, u64Max]
  have hb : btc_per_kb (0 : ℚ) = .ok ⟨⟨0⟩⟩ := by
    norm_num [btc_per_kb, Amount.from_btc, btcToSats, u64Max]
  refine ⟨?_, rfl, rfl⟩
  simp [GetWalletInfo.into_model, walletInfoAliasOnly, walletInfoAliasOnlyModel, h0, hb]

/-- **C9** (amended): the deprecated `hd_master_key_id` alias never
influences the result of `GetWalletInfo::into_model` — whether or not the
live field is present — and the domain `hd_seed_id` is derived solely from
the wire `hd_seed_id` field: absent when it is absent (even when the alias
alone is present), the parsed hash when it is present. -/
theorem C9_alias_never_converted :
    (∀ (w : GetWalletInfo) (v : Option String),
      GetWalletInfo.into_model { w with hd_master_key_id := v } =
        GetWalletInfo.into_model w) ∧
    (∀ (w : GetWalletInfo) (m : model.GetWalletInfo),
      GetWalletInfo.into_model w = .ok m →
      (w.hd_seed_id = none → m.hd_seed_id = none) ∧
      (∀ s, w.hd_seed_id = some s →
        ∃ h160, Hash160.parse s = .ok h160 ∧ m.hd_seed_id = some h160)) := by
  constructor
  · intro w v
    rfl
  · intro w m h
    unfold GetWalletInfo.into_model at h
    cases h1 : Amount.from_btc w.balance with
    | error e => rw [h1] at h; simp at h
    | ok b =>
      rw [h1, except_mapError_ok, except_bind_ok] at h
      cases h2 : Amount.from_btc w.unconfirmed_balance with
      | error e => rw [h2] at h; simp at h
      | ok u =>
        rw [h2, except_mapError_ok, except_bind_ok] at h
        cases h3 : Amount.from_btc w.immature_balance with
        | error e => rw [h3] at h; simp at h
        | ok i =>
          rw [h3, except_mapError_ok, except_bind_ok] at h
          cases h4 : btc_per_kb w.pay_tx_fee with
          | error e => rw [h4] at h; simp at h
          | ok f =>
            rw [h4, except_mapError_ok, except_bind_ok] at h
            constructor
            · intro hz
              rw [hz] at h
              dsimp only at h
              simp only [except_pure_eq, except_bind_ok] at h
              have hm := Except.ok.inj h
              rw [← hm]
            · intro s hs
              rw [hs] at h
              dsimp only at h
              cases h5 : Hash160.parse s with
              | error e => rw [h5] at h; simp at h
              | ok h160 =>
                rw [h5] at h
                simp only [except_mapError_ok, except_map_ok, except_bind_ok] at h
                have hm := Except.ok.inj h
                exact ⟨h160, rfl, by rw [← hm]⟩

/-- Witness for C9: applying the theorem at the alias-only record shows
its converted `hd_seed_id` is `none`. -/
theorem C9_alias_never_converted_witness :
    walletInfoAliasOnlyModel.hd_seed_id = none :=
  (C9_alias_never_converted.2 walletInfoAliasOnly walletInfoAliasOnlyModel
    (by
      have h0 : Amount.from_btc (0 : ℚ) = .ok ⟨0⟩ := by
        norm_num [Amount.from_btc, btcToSats, u64Max]
      have hb : btc_per_kb (0 : ℚ) = .ok ⟨⟨0⟩⟩ := by
        norm_num [btc_per_kb, Amount.from_btc, btcToSats, u64Max]
      simp [GetWalletInfo.into_model, walletInfoAliasOnly, walletInfoAliasOnlyModel,
        h0, hb])).1 rfl

end BitcoindJson
